import Mathlib

/- Shallow embedding of the SSE relay and the opencode service supervisor
   implemented in src-tauri/src/app.rs. Byte streams are lists of byte
   values (Nat < 256), text is a list of characters, and the stateful read
   loop of sse_connect is modelled as a function of the sequence of step
   outcomes (chunk / error / end-of-stream / timeout / deactivation) it
   encounters. Channel sends are modelled as always delivered. -/

/-- The code points with the Unicode White_Space property; this is the set
accepted by Rust's char::is_whitespace, which str::trim uses. -/
def rustIsWhitespace (c : Char) : Bool :=
  ([0x09, 0x0A, 0x0B, 0x0C, 0x0D, 0x20, 0x85, 0xA0, 0x1680,
    0x2000, 0x2001, 0x2002, 0x2003, 0x2004, 0x2005, 0x2006, 0x2007,
    0x2008, 0x2009, 0x200A, 0x2028, 0x2029, 0x202F, 0x205F, 0x3000] : List Nat).contains c.toNat

/-- Rust line.trim_end_matches with a carriage-return pattern: removes every
trailing occurrence of the carriage return character. Formulated by
recursion on the front of the list: a character is kept unless it is a
carriage return and everything after it is dropped. -/
def trimEndCR : List Char → List Char
  | [] => []
  | c :: rest =>
    let r := trimEndCR rest
    if c = '\r' ∧ r = [] then [] else c :: r

/-- Trailing-whitespace removal, the second half of Rust str::trim. -/
def rustTrimEnd : List Char → List Char
  | [] => []
  | c :: rest =>
    let r := rustTrimEnd rest
    if rustIsWhitespace c ∧ r = [] then [] else c :: r

/-- Rust str::trim: whitespace removed from both ends. -/
def rustTrim (l : List Char) : List Char :=
  (rustTrimEnd l).dropWhile rustIsWhitespace

/-- Rust line.strip_prefix of the five characters of the SSE data field
name: on success returns the rest of the line after the colon. -/
def dataFieldRest : List Char → Option (List Char)
  | 'd' :: 'a' :: 't' :: 'a' :: ':' :: rest => some rest
  | _ => none

/-- One iteration of the line-processing loop body of sse_connect
(src-tauri/src/app.rs lines 151-179): the raw line has its trailing
carriage returns removed; a data field appends its trimmed payload to the
accumulated event data (joined with a newline when data is already
present, skipped when the trimmed payload is empty); a blank line flushes
non-empty accumulated data as one message; any other line is ignored.
Returns the new accumulated data and the optionally flushed payload. -/
def handleLine (lineRaw data : List Char) : List Char × Option (List Char) :=
  let line := trimEndCR lineRaw
  match dataFieldRest line with
  | some stripped =>
    let d := rustTrim stripped
    if d = [] then (data, none)
    else if data = [] then (d, none)
    else (data ++ '\n' :: d, none)
  | none =>
    if line = [] then
      if data = [] then (data, none) else ([], some data)
    else (data, none)

/-- Parser state carried across chunks: the byte buffer holding the
current incomplete line (buffer) and the accumulated record data
(event_data) of sse_connect. -/
structure PState where
  buffer : List Char
  data : List Char
deriving DecidableEq

/-- Feeding decoded chunk text into the parser: characters are appended to
the pending buffer; each newline completes a line, which is processed by
handleLine with the buffer reset. Returns the final state and the payloads
of the messages emitted, in order. This walks the concatenation
buffer ++ chunk exactly as the source's find-newline loop does. -/
def feedChars : List Char → PState → PState × List (List Char)
  | [], st => (st, [])
  | c :: cs, st =>
    if c = '\n' then
      let hd := handleLine st.buffer st.data
      let r := feedChars cs ⟨[], hd.1⟩
      (r.1, hd.2.toList ++ r.2)
    else
      feedChars cs ⟨st.buffer ++ [c], st.data⟩

/-- A UTF-8 continuation byte. -/
def isCont (b : Nat) : Bool := decide (0x80 ≤ b) && decide (b ≤ 0xBF)

/-- The Unicode replacement character emitted by lossy decoding. -/
def replChar : Char := Char.ofNat 0xFFFD

/-- One step of Rust String::from_utf8_lossy: the number of bytes consumed
from the front and the character produced. Invalid sequences consume their
maximal valid subpart (per the WHATWG substitution rule Rust implements)
and produce one replacement character; a truncated sequence at the end of
the input consumes all of its bytes for a single replacement character. -/
def utf8Step : List Nat → Nat × Char
  | [] => (1, replChar)
  | b :: rest =>
    if b < 0x80 then (1, Char.ofNat b)
    else if b < 0xC2 then (1, replChar)
    else if b ≤ 0xDF then
      match rest with
      | [] => (1, replChar)
      | b2 :: _ =>
        if isCont b2 then (2, Char.ofNat ((b - 0xC0) * 64 + (b2 - 0x80)))
        else (1, replChar)
    else if b ≤ 0xEF then
      match rest with
      | [] => (1, replChar)
      | b2 :: rest2 =>
        let ok2 : Bool :=
          if b = 0xE0 then decide (0xA0 ≤ b2) && decide (b2 ≤ 0xBF)
          else if b = 0xED then decide (0x80 ≤ b2) && decide (b2 ≤ 0x9F)
          else isCont b2
        if ok2 then
          match rest2 with
          | [] => (2, replChar)
          | b3 :: _ =>
            if isCont b3 then
              (3, Char.ofNat ((b - 0xE0) * 4096 + (b2 - 0x80) * 64 + (b3 - 0x80)))
            else (2, replChar)
        else (1, replChar)
    else if b ≤ 0xF4 then
      match rest with
      | [] => (1, replChar)
      | b2 :: rest2 =>
        let ok2 : Bool :=
          if b = 0xF0 then decide (0x90 ≤ b2) && decide (b2 ≤ 0xBF)
          else if b = 0xF4 then decide (0x80 ≤ b2) && decide (b2 ≤ 0x8F)
          else isCont b2
        if ok2 then
          match rest2 with
          | [] => (2, replChar)
          | b3 :: rest3 =>
            if isCont b3 then
              match rest3 with
              | [] => (3, replChar)
              | b4 :: _ =>
                if isCont b4 then
                  (4, Char.ofNat ((b - 0xF0) * 262144 + (b2 - 0x80) * 4096
                      + (b3 - 0x80) * 64 + (b4 - 0x80)))
                else (3, replChar)
            else (2, replChar)
        else (1, replChar)
    else (1, replChar)

/-- Fuelled driver for the lossy decoder; the fuel is the input length,
which suffices because every step consumes at least one byte. -/
def utf8DecodeLossyAux : Nat → List Nat → List Char
  | 0, _ => []
  | _, [] => []
  | fuel + 1, b :: rest =>
    let s := utf8Step (b :: rest)
    s.2 :: utf8DecodeLossyAux fuel ((b :: rest).drop (max s.1 1))

/-- Rust String::from_utf8_lossy applied to one received chunk
(src-tauri/src/app.rs line 147). -/
def utf8DecodeLossy (l : List Nat) : List Char :=
  utf8DecodeLossyAux l.length l

/-- The UTF-8 bytes of an ASCII string, used to write concrete byte
streams readably. -/
def asciiBytes (s : String) : List Nat := s.toList.map Char.toNat

/-- The events sse_connect sends over the Tauri channel. -/
inductive SseEvent where
  | connected : SseEvent
  | message (raw : List Char) : SseEvent
  | disconnected (reason : List Char) : SseEvent
  | error (msg : List Char) : SseEvent
deriving DecidableEq

/-- Result of the sse_connect command: Ok(()) or Err(message). -/
inductive CallResult where
  | ok : CallResult
  | err (msg : List Char) : CallResult
deriving DecidableEq

/-- Outcome of one awaited chunk read inside the loop of sse_connect:
a chunk of bytes, a transport error, clean end of stream, or expiry of the
90 second read timeout. -/
inductive ReadOutcome where
  | chunk (bytes : List Nat) : ReadOutcome
  | rerr (msg : List Char) : ReadOutcome
  | eof : ReadOutcome
  | timeout : ReadOutcome

/-- One iteration of the read loop, as seen by the connection: either the
pre-read activity check found the connection no longer active for its
window, or the check passed and the awaited read produced an outcome. -/
inductive LoopStep where
  | deactivated : LoopStep
  | read (r : ReadOutcome) : LoopStep

def byClientReason : List Char := "Disconnected by client".toList

def streamEndedReason : List Char := "Stream ended".toList

/-- format of the read-timeout message with READ_TIMEOUT.as_secs() = 90. -/
def timeoutMsg : List Char := "SSE read timeout (90s without data)".toList

def streamErrMsg (e : List Char) : List Char := "SSE stream error: ".toList ++ e

def connFailedMsg (e : List Char) : List Char := "SSE connection failed: ".toList ++ e

def statusMsg (code : List Char) : List Char := "SSE server returned ".toList ++ code

/-- The read loop of sse_connect (src-tauri/src/app.rs lines 136-209) as a
function of the iteration outcomes: a failed activity check emits the
client-disconnect event and returns Ok; a chunk is lossily decoded and fed
to the line parser, whose flushed payloads are sent as messages; a stream
error or timeout emits one error event and fails with the same message;
end of stream flushes non-empty accumulated data as a final message, emits
the stream-ended event and returns Ok. The result is none when the step
list is exhausted with the loop still running. -/
def runLoop : List LoopStep → PState → List SseEvent × Option CallResult
  | [], _ => ([], none)
  | .deactivated :: _, _ => ([.disconnected byClientReason], some .ok)
  | .read (.chunk bytes) :: rest, st =>
    let fd := feedChars (utf8DecodeLossy bytes) st
    let r := runLoop rest fd.1
    (fd.2.map SseEvent.message ++ r.1, r.2)
  | .read (.rerr e) :: _, _ => ([.error (streamErrMsg e)], some (.err (streamErrMsg e)))
  | .read .eof :: _, st =>
    ((if st.data = [] then [] else [.message st.data]) ++ [.disconnected streamEndedReason],
      some .ok)
  | .read .timeout :: _, _ => ([.error timeoutMsg], some (.err timeoutMsg))

/-- Insert into the window-label-to-connection-id map, replacing any entry
with the same key, as HashMap::insert does. -/
def mapInsert (k : String) (v : Nat) : List (String × Nat) → List (String × Nat)
  | [] => [(k, v)]
  | (k', v') :: rest => if k' = k then (k, v) :: rest else (k', v') :: mapInsert k v rest

/-- Remove a key from the map, as HashMap::remove does. -/
def mapRemove (k : String) : List (String × Nat) → List (String × Nat)
  | [] => []
  | (k', v') :: rest => if k' = k then rest else (k', v') :: mapRemove k rest

/-- Lookup in the map, as HashMap::get does. -/
def mapGet (k : String) : List (String × Nat) → Option Nat
  | [] => none
  | (k', v') :: rest => if k' = k then some v' else mapGet k rest

/-- The shared SseState: the monotone connection-id counter next_id and
the per-window active-connection map. -/
structure GState where
  nextId : Nat
  active : List (String × Nat)

/-- Outcome of the connection setup phase of sse_connect: a failure of
reqwest Client::builder().build() (which fails the call before any event
can be sent), a transport failure of the request, a non-2xx response
status (its displayed text), or a successful 2xx response. -/
inductive Setup where
  | builderErr (msg : List Char) : Setup
  | transportErr (msg : List Char) : Setup
  | badStatus (code : List Char) : Setup
  | success : Setup

/-- format of the client construction failure message at
src-tauri/src/app.rs line 99. -/
def builderFailedMsg (e : List Char) : List Char :=
  "Failed to create HTTP client: ".toList ++ e

/-- A whole sse_connect call (src-tauri/src/app.rs lines 81-210): a fresh
connection id next_id + 1 is allocated and inserted for the window label
before anything else; a client-builder failure fails the call with no
event sent at all (lines 93-99); a request or status failure emits one
error event and fails the call; neither path touches the map again; on
success the connected event is sent and the read loop runs from the empty
parser state. The loop never writes the map, so the call leaves the
inserted entry in place. -/
def sseConnectCall (g : GState) (w : String) (setup : Setup) (steps : List LoopStep) :
    GState × List SseEvent × Option CallResult :=
  let connId := g.nextId + 1
  let g' : GState := ⟨connId, mapInsert w connId g.active⟩
  match setup with
  | .builderErr e => (g', [], some (.err (builderFailedMsg e)))
  | .transportErr e => (g', [.error (connFailedMsg e)], some (.err (connFailedMsg e)))
  | .badStatus c => (g', [.error (statusMsg c)], some (.err (statusMsg c)))
  | .success =>
    let r := runLoop steps ⟨[], []⟩
    (g', .connected :: r.1, r.2)

/-- The requests that mutate the shared SseState map: sse_connect's entry
insertion, sse_disconnect's removal, and the window-destroyed cleanup. -/
inductive SseOp where
  | connect (w : String) : SseOp
  | disconnect (w : String) : SseOp
  | destroyed (w : String) : SseOp

/-- Effect of one request on the shared state. -/
def applyOp (g : GState) : SseOp → GState
  | .connect w => ⟨g.nextId + 1, mapInsert w (g.nextId + 1) g.active⟩
  | .disconnect w => ⟨g.nextId, mapRemove w g.active⟩
  | .destroyed w => ⟨g.nextId, mapRemove w g.active⟩

/-- Effect of a sequence of requests on the shared state. -/
def applyOps (g : GState) : List SseOp → GState
  | [] => g
  | op :: ops => applyOps (applyOp g op) ops

/-- The keys (window labels) present in the active map. -/
def keysOf (m : List (String × Nat)) : List String := m.map Prod.fst

/-- The ServiceState tracked by the supervisor: the pid of the child we
spawned, if any, and whether we started the service. -/
structure SvcState where
  child_pid : Option Nat
  we_started : Bool
deriving DecidableEq

/-- Outcome of spawn_opencode_serve, supplied as an input: the spawned
child's pid, or the descriptive failure message it formats. -/
inductive SpawnOutcome where
  | spawned (pid : Nat) : SpawnOutcome
  | failed (msg : List Char) : SpawnOutcome
deriving DecidableEq

/-- start_opencode_service (src-tauri/src/app.rs lines 371-399) as a
function of the health-probe answer and the spawn outcome. Returns the new
state, whether a process was spawned, and the command result: Ok(false)
without spawning when the probe says the service is already running;
otherwise the spawn failure fails the call untouched, and a successful
spawn records the pid, sets we_started and returns Ok(true) regardless of
the readiness poll. -/
def start_opencode_service (running : Bool) (sp : SpawnOutcome) (st : SvcState) :
    SvcState × Bool × Except (List Char) Bool :=
  if running then (st, false, .ok false)
  else
    match sp with
    | .failed e => (st, false, .error e)
    | .spawned pid => (⟨some pid, true⟩, true, .ok true)

/-- stop_opencode_service (src-tauri/src/app.rs lines 403-413): takes the
tracked pid out, clears we_started, kills the taken pid if there was one,
and always returns Ok. The middle component is the pid a kill was issued
for (none when no pid was tracked). -/
def stop_opencode_service (st : SvcState) : SvcState × Option Nat × Except (List Char) Unit :=
  (⟨none, false⟩, st.child_pid, .ok ())

/-- get_service_started_by_us (src-tauri/src/app.rs lines 417-419). -/
def get_service_started_by_us (st : SvcState) : Bool := st.we_started

/-- Folding a list of received byte chunks through lossy decoding and the
line parser, collecting the emitted message payloads in order: the
message-producing part of the read loop. -/
def runChunksFrom : List (List Nat) → PState → PState × List (List Char)
  | [], st => (st, [])
  | c :: cs, st =>
    let r1 := feedChars (utf8DecodeLossy c) st
    let r2 := runChunksFrom cs r1.1
    (r2.1, r1.2 ++ r2.2)

/-- The message payloads sse_connect's parser emits for a chunked byte
stream, starting from the initial empty parser state. -/
def sseMessages (chunks : List (List Nat)) : List (List Char) :=
  (runChunksFrom chunks ⟨[], []⟩).2

/-- Feeding a concatenation of two pieces of text equals feeding them in
sequence: the parser state composes and the payload lists concatenate. -/
theorem feedChars_append (a b : List Char) (st : PState) :
    feedChars (a ++ b) st =
      ((feedChars b (feedChars a st).1).1,
        (feedChars a st).2 ++ (feedChars b (feedChars a st).1).2) := by
  induction a generalizing st with
  | nil => simp [feedChars]
  | cons c cs ih =>
    by_cases hc : c = '\n'
    · simp [feedChars, hc, ih, List.append_assoc]
    · simp [feedChars, hc, ih]

/-- Folding chunks equals feeding the concatenation of their decodings. -/
theorem runChunksFrom_eq_join (cs : List (List Nat)) (st : PState) :
    runChunksFrom cs st = feedChars (cs.map utf8DecodeLossy).flatten st := by
  induction cs generalizing st with
  | nil => simp [runChunksFrom, feedChars]
  | cons c cs ih =>
    simp [runChunksFrom, ih, feedChars_append]

/-- Looking up a key right after inserting it yields the inserted value. -/
theorem mapGet_mapInsert_self (k : String) (v : Nat) (m : List (String × Nat)) :
    mapGet k (mapInsert k v m) = some v := by
  induction m with
  | nil => simp [mapInsert, mapGet]
  | cons p rest ih =>
    obtain ⟨k', v'⟩ := p
    by_cases h : k' = k
    · simp [mapInsert, mapGet, h]
    · simp [mapInsert, mapGet, h, ih]

/-- Claim C1 does not hold as stated: the emitted messages are not a
function of the concatenated bytes alone. Splitting the UTF-8 encoding of
a data line containing the two-byte character 0xC3 0xA9 between its two
bytes makes each fragment decode to a replacement character, so the same
logical byte stream chunked differently yields a different message. -/
theorem C1_counterexample :
    ([[0x64, 0x61, 0x74, 0x61, 0x3A, 0x20, 0xC3], [0xA9, 0x0A, 0x0A]] : List (List Nat)).flatten
      = ([[0x64, 0x61, 0x74, 0x61, 0x3A, 0x20, 0xC3, 0xA9, 0x0A, 0x0A]] : List (List Nat)).flatten
    ∧ sseMessages [[0x64, 0x61, 0x74, 0x61, 0x3A, 0x20, 0xC3, 0xA9, 0x0A, 0x0A]]
      ≠ sseMessages [[0x64, 0x61, 0x74, 0x61, 0x3A, 0x20, 0xC3], [0xA9, 0x0A, 0x0A]] := by
  decide

/-- Claim C1 amended: the emitted messages are a function of the
concatenation of the per-chunk lossy decodings, so reassembly is invariant
to every chunking that leaves the decoded text unchanged — in particular
to all splits at UTF-8 codepoint boundaries of valid input, including
splits mid-line and mid-field. -/
theorem C1_chunk_invariance_amended (cs1 cs2 : List (List Nat))
    (h : (cs1.map utf8DecodeLossy).flatten = (cs2.map utf8DecodeLossy).flatten) :
    sseMessages cs1 = sseMessages cs2 := by
  unfold sseMessages
  rw [runChunksFrom_eq_join, runChunksFrom_eq_join, h]

/-- Witness for the amended claim C1 at a concrete mid-line split. -/
theorem C1_chunk_invariance_amended_witness :
    ([asciiBytes "data: hi\n\n"].map utf8DecodeLossy).flatten
      = ([asciiBytes "data: h", asciiBytes "i\n\n"].map utf8DecodeLossy).flatten
    ∧ sseMessages [asciiBytes "data: hi\n\n"]
      = sseMessages [asciiBytes "data: h", asciiBytes "i\n\n"] :=
  ⟨by decide, C1_chunk_invariance_amended _ _ (by decide)⟩

/-- Claim C3: the record made of the two lines data: foo and data: bar
followed by a blank line yields exactly one message whose payload is foo,
newline, bar — not two separate messages. -/
theorem C3_two_data_lines_one_message :
    runLoop [.read (.chunk (asciiBytes "data: foo\ndata: bar\n\n"))] ⟨[], []⟩
      = ([SseEvent.message ("foo\nbar".toList)], none) := by
  decide

/-- Claim C5: when the 90 second read wait expires, the loop emits exactly
one error event naming the read timeout, fails the call with that same
message, and nothing that could follow is ever processed; after a
successful connection the full delivered sequence is the connected event
followed by that single error. -/
theorem C5_read_timeout :
    (∀ (rest : List LoopStep) (st : PState),
      runLoop (.read .timeout :: rest) st = ([.error timeoutMsg], some (.err timeoutMsg)))
    ∧ (∀ (g : GState) (w : String) (rest : List LoopStep),
      (sseConnectCall g w .success (.read .timeout :: rest)).2
        = ([.connected, .error timeoutMsg], some (.err timeoutMsg))) := by
  exact ⟨fun rest st => rfl, fun g w rest => rfl⟩

/-- Claim C6: when the stream ends cleanly with non-empty accumulated
record data, exactly one final message carrying that data is flushed
before the stream-ended disconnect, and the call returns success. -/
theorem C6_eof_flush (rest : List LoopStep) (st : PState) (h : st.data ≠ []) :
    runLoop (.read .eof :: rest) st
      = ([.message st.data, .disconnected streamEndedReason], some .ok) := by
  simp [runLoop, h]

/-- Witness for claim C6: the state reached by the input
data: foo, newline, data: bar with no terminating newline — the complete
first line is accumulated, the unterminated second still sits in the
buffer — flushes the accumulated foo and disconnects. -/
theorem C6_eof_flush_witness :
    (PState.mk ("data: bar".toList) ("foo".toList)).data ≠ [] ∧
    runLoop [.read .eof] ⟨"data: bar".toList, "foo".toList⟩
      = ([.message ("foo".toList), .disconnected streamEndedReason], some .ok) :=
  ⟨by decide, C6_eof_flush [] _ (by decide)⟩

/-- Claim C7 does not hold as stated: the payload of a data line is
trimmed with str::trim, which removes trailing whitespace too. The line
data: x with a trailing space appends the payload x, not x-space. -/
theorem C7_counterexample :
    handleLine ("data: x ".toList) [] = ("x".toList, none) ∧
    handleLine ("data: x ".toList) [] ≠ ("x ".toList, none) := by
  decide

/-- Removing trailing carriage returns from a line starting with the data
field name leaves the field name intact. -/
theorem trimEndCR_data_field (s : List Char) :
    trimEndCR ("data:".toList ++ s) = "data:".toList ++ trimEndCR s := by
  have h : "data:".toList = ['d', 'a', 't', 'a', ':'] := rfl
  rw [h]
  simp [trimEndCR]

/-- Claim C7 amended: for every line beginning with the data field name,
the appended payload is the text after the colon with whitespace trimmed
from both ends (leading and trailing), joined to existing record content
with a newline; a payload that trims to nothing is skipped. -/
theorem C7_data_line_amended (s data : List Char) :
    handleLine ("data:".toList ++ s) data
      = (if rustTrim (trimEndCR s) = [] then data
         else if data = [] then rustTrim (trimEndCR s)
         else data ++ '\n' :: rustTrim (trimEndCR s), none) := by
  unfold handleLine
  rw [trimEndCR_data_field]
  have h : "data:".toList = ['d', 'a', 't', 'a', ':'] := rfl
  rw [h]
  simp only [List.cons_append, List.nil_append, dataFieldRest]
  by_cases h1 : rustTrim (trimEndCR s) = [] <;> by_cases h2 : data = [] <;>
    simp [h1, h2]

/-- Claim C8: when the health probe reports the service already running,
start returns the already-running result Ok(false), spawns nothing, and
leaves the tracked pid and ownership flag untouched — so a second start
while the service is healthy never spawns a second process. -/
theorem C8_start_already_running (sp : SpawnOutcome) (st : SvcState) :
    start_opencode_service true sp st = (st, false, .ok false) := by
  simp [start_opencode_service]

/-- Claim C9: stop always returns success, removes the tracked pid and
clears the ownership flag so a subsequent query reports false, and issues
a kill exactly for the pid that was tracked — hence no kill when none
was. -/
theorem C9_stop_clears_state (st : SvcState) :
    stop_opencode_service st = (⟨none, false⟩, st.child_pid, .ok ()) ∧
    get_service_started_by_us (stop_opencode_service st).1 = false :=
  ⟨rfl, rfl⟩

/-- Claim C10: a connect that fails during setup — transport error or
non-2xx status — leaves the window's entry in the active map in place,
still mapping to the failed connection's id, while the call fails. -/
theorem C10_failed_setup_keeps_entry (g : GState) (w : String) (m c : List Char)
    (steps : List LoopStep) :
    (mapGet w (sseConnectCall g w (.transportErr m) steps).1.active = some (g.nextId + 1)
      ∧ (sseConnectCall g w (.transportErr m) steps).2.2 = some (.err (connFailedMsg m)))
    ∧ (mapGet w (sseConnectCall g w (.badStatus c) steps).1.active = some (g.nextId + 1)
      ∧ (sseConnectCall g w (.badStatus c) steps).2.2 = some (.err (statusMsg c))) := by
  refine ⟨⟨?_, rfl⟩, ?_, rfl⟩ <;> simp [sseConnectCall, mapGet_mapInsert_self]


/-- A key present after an insertion is the inserted key or was present
before. -/
theorem mem_keysOf_mapInsert (x k : String) (v : Nat) :
    ∀ m, x ∈ keysOf (mapInsert k v m) → x = k ∨ x ∈ keysOf m := by
  intro m
  induction m with
  | nil => simp [mapInsert, keysOf]
  | cons p rest ih =>
    obtain ⟨k', v'⟩ := p
    intro hx
    simp only [mapInsert] at hx
    by_cases h : k' = k
    · rw [if_pos h] at hx
      simp only [keysOf, List.map_cons, List.mem_cons] at hx ⊢
      tauto
    · rw [if_neg h] at hx
      simp only [keysOf, List.map_cons, List.mem_cons] at hx ⊢
      rcases hx with hx | hx
      · tauto
      · rcases ih hx with h1 | h1 <;> tauto

/-- Insertion preserves distinctness of the window labels in the map. -/
theorem nodup_keysOf_mapInsert (k : String) (v : Nat) :
    ∀ m, (keysOf m).Nodup → (keysOf (mapInsert k v m)).Nodup := by
  intro m
  induction m with
  | nil => intro _; simp [mapInsert, keysOf]
  | cons p rest ih =>
    obtain ⟨k', v'⟩ := p
    intro hm
    simp only [keysOf, List.map_cons, List.nodup_cons] at hm
    obtain ⟨hnotin, hnd⟩ := hm
    simp only [mapInsert]
    by_cases h : k' = k
    · rw [if_pos h]
      simp only [keysOf, List.map_cons, List.nodup_cons]
      subst h
      exact ⟨hnotin, hnd⟩
    · rw [if_neg h]
      simp only [keysOf, List.map_cons, List.nodup_cons]
      refine ⟨fun hmem => ?_, ih hnd⟩
      rcases mem_keysOf_mapInsert k' k v rest hmem with h1 | h1
      · exact h h1
      · exact hnotin h1

/-- A key present after a removal was present before. -/
theorem mem_keysOf_mapRemove (x k : String) :
    ∀ m, x ∈ keysOf (mapRemove k m) → x ∈ keysOf m := by
  intro m
  induction m with
  | nil => simp [mapRemove, keysOf]
  | cons p rest ih =>
    obtain ⟨k', v'⟩ := p
    intro hx
    simp only [mapRemove] at hx
    by_cases h : k' = k
    · rw [if_pos h] at hx
      simp only [keysOf, List.map_cons, List.mem_cons]
      tauto
    · rw [if_neg h] at hx
      simp only [keysOf, List.map_cons, List.mem_cons] at hx ⊢
      rcases hx with hx | hx
      · tauto
      · exact Or.inr (ih hx)

/-- Removal preserves distinctness of the window labels in the map. -/
theorem nodup_keysOf_mapRemove (k : String) :
    ∀ m, (keysOf m).Nodup → (keysOf (mapRemove k m)).Nodup := by
  intro m
  induction m with
  | nil => intro _; simp [mapRemove, keysOf]
  | cons p rest ih =>
    obtain ⟨k', v'⟩ := p
    intro hm
    simp only [keysOf, List.map_cons, List.nodup_cons] at hm
    obtain ⟨hnotin, hnd⟩ := hm
    simp only [mapRemove]
    by_cases h : k' = k
    · rw [if_pos h]
      exact hnd
    · rw [if_neg h]
      simp only [keysOf, List.map_cons, List.nodup_cons]
      exact ⟨fun hmem => hnotin (mem_keysOf_mapRemove k' k rest hmem), ih hnd⟩

/-- Every request preserves distinctness of the window labels. -/
theorem nodup_applyOp (g : GState) (op : SseOp) (h : (keysOf g.active).Nodup) :
    (keysOf (applyOp g op).active).Nodup := by
  cases op with
  | connect w => exact nodup_keysOf_mapInsert w _ _ h
  | disconnect w => exact nodup_keysOf_mapRemove w _ h
  | destroyed w => exact nodup_keysOf_mapRemove w _ h

/-- Every request sequence preserves distinctness of the window labels. -/
theorem nodup_applyOps :
    ∀ (ops : List SseOp) (g : GState), (keysOf g.active).Nodup →
      (keysOf (applyOps g ops).active).Nodup := by
  intro ops
  induction ops with
  | nil => intro g h; simpa [applyOps] using h
  | cons op ops ih => intro g h; exact ih _ (nodup_applyOp g op h)

/-- Claim C2: after any sequence of connect and disconnect requests, each
surface has at most one active connection id; a newer connect on the same
surface installs a strictly different id, so the superseded connection's
activity check fails; and a connection that observes it is no longer
active terminates by emitting the client-disconnect event and returning
success, never silently. -/
theorem C2_single_active_supersession :
    (∀ (ops : List SseOp) (w : String),
      (keysOf (applyOps ⟨0, []⟩ ops).active).count w ≤ 1)
    ∧ (∀ (g : GState) (w : String),
      mapGet w (applyOp (applyOp g (.connect w)) (.connect w)).active = some (g.nextId + 2)
        ∧ g.nextId + 2 ≠ g.nextId + 1)
    ∧ (∀ (rest : List LoopStep) (st : PState),
      runLoop (.deactivated :: rest) st = ([.disconnected byClientReason], some .ok)) := by
  refine ⟨?_, ?_, ?_⟩
  · intro ops w
    have h := nodup_applyOps ops ⟨0, []⟩ (by simp [keysOf])
    exact List.nodup_iff_count_le_one.mp h w
  · intro g w
    refine ⟨?_, by omega⟩
    simp [applyOp, mapGet_mapInsert_self]
  · intro rest st
    rfl

/-- Whether an event is a message event. -/
def isMsgEv : SseEvent → Bool
  | .message _ => true
  | _ => false

/-- Whether an event is terminal: a disconnect or an error. -/
def isTerminalEv : SseEvent → Bool
  | .disconnected _ => true
  | .error _ => true
  | _ => false

/-- A non-empty event list consisting of message events followed by
exactly one final terminal event. -/
def msgsThenTerminal : List SseEvent → Bool
  | [] => false
  | [e] => isTerminalEv e
  | e :: e2 :: rest => isMsgEv e && msgsThenTerminal (e2 :: rest)

/-- The delivered-order shape claimed for a completed connection: an
optional leading connected event, then message events, then exactly one
terminal event, with nothing after it. -/
def shapeOk (evs : List SseEvent) : Bool :=
  match evs with
  | .connected :: rest => msgsThenTerminal rest
  | _ => msgsThenTerminal evs

/-- Prepending message events preserves the messages-then-terminal
shape. -/
theorem msgsThenTerminal_map_append (m : List (List Char)) (evs : List SseEvent)
    (h : msgsThenTerminal evs = true) :
    msgsThenTerminal (m.map SseEvent.message ++ evs) = true := by
  induction m with
  | nil => simpa using h
  | cons x xs ih =>
    have hne : xs.map SseEvent.message ++ evs ≠ [] := by
      intro hh
      have hevs : evs = [] := (List.append_eq_nil.mp hh).2
      rw [hevs] at h
      simp [msgsThenTerminal] at h
    cases hxy : xs.map SseEvent.message ++ evs with
    | nil => exact absurd hxy hne
    | cons y ys =>
      have hform : (x :: xs).map SseEvent.message ++ evs = SseEvent.message x :: y :: ys := by
        simp only [List.map_cons, List.cons_append, hxy]
      rw [hform]
      have ih' : msgsThenTerminal (y :: ys) = true := by rw [← hxy]; exact ih
      simp [msgsThenTerminal, isMsgEv, ih']

/-- A terminated run of the read loop delivers message events followed by
exactly one terminal event. -/
theorem runLoop_shape (steps : List LoopStep) :
    ∀ st, (runLoop steps st).2 ≠ none → msgsThenTerminal (runLoop steps st).1 = true := by
  induction steps with
  | nil => intro st h; simp [runLoop] at h
  | cons s rest ih =>
    intro st h
    cases s with
    | deactivated => simp [runLoop, msgsThenTerminal, isTerminalEv]
    | read r =>
      cases r with
      | chunk bytes =>
        simp only [runLoop] at h ⊢
        exact msgsThenTerminal_map_append _ _ (ih _ h)
      | rerr e => simp [runLoop, msgsThenTerminal, isTerminalEv]
      | eof =>
        by_cases hd : st.data = []
        · simp [runLoop, hd, msgsThenTerminal, isTerminalEv]
        · simp [runLoop, hd, msgsThenTerminal, isTerminalEv, isMsgEv]
      | timeout => simp [runLoop, msgsThenTerminal, isTerminalEv]

/-- Claim C4 does not hold as stated: a failure of
reqwest Client::builder().build() fails the call before any event is
sent, so this completed run delivers zero events — in particular no
terminal event, violating the claimed shape. -/
theorem C4_counterexample :
    (sseConnectCall ⟨0, []⟩ "main" (.builderErr ("boom".toList)) []).2
      = ([], some (.err (builderFailedMsg ("boom".toList)))) ∧
    shapeOk [] = false := by
  decide

/-- Claim C4 amended: every completed run of sse_connect that gets past
HTTP-client construction delivers an optional connected event, then
message events in arrival order, then exactly one terminal disconnect or
error event, with no event of any kind after the terminal one; a
client-builder failure instead fails the call delivering no events at
all. -/
theorem C4_event_order_amended :
    (∀ (g : GState) (w : String) (setup : Setup) (steps : List LoopStep),
      (∀ e, setup ≠ .builderErr e) →
      (sseConnectCall g w setup steps).2.2 ≠ none →
      shapeOk (sseConnectCall g w setup steps).2.1 = true)
    ∧ (∀ (g : GState) (w : String) (e : List Char) (steps : List LoopStep),
      (sseConnectCall g w (.builderErr e) steps).2
        = ([], some (.err (builderFailedMsg e)))) := by
  constructor
  · intro g w setup steps hb h
    cases setup with
    | builderErr e => exact absurd rfl (hb e)
    | transportErr m => simp [sseConnectCall, shapeOk, msgsThenTerminal, isTerminalEv]
    | badStatus c => simp [sseConnectCall, shapeOk, msgsThenTerminal, isTerminalEv]
    | success =>
      simp only [sseConnectCall] at h ⊢
      simp only [shapeOk]
      exact runLoop_shape _ _ h
  · intro g w e steps
    rfl

/-- Witness for the amended claim C4 on a concrete completed run: connect
succeeds, one chunk with a full record arrives, then the stream ends. -/
theorem C4_event_order_amended_witness :
    (∀ e, Setup.success ≠ .builderErr e) ∧
    (sseConnectCall ⟨0, []⟩ "main" .success
        [.read (.chunk (asciiBytes "data: hi\n\n")), .read .eof]).2.2 ≠ none ∧
    shapeOk (sseConnectCall ⟨0, []⟩ "main" .success
        [.read (.chunk (asciiBytes "data: hi\n\n")), .read .eof]).2.1 = true :=
  by
  refine ⟨?_, by decide, ?_⟩
  · intro e h
    cases h
  · exact C4_event_order_amended.1 _ _ _ _ (fun e h => by cases h) (by decide)
